import Mathlib

/-!
Verification of the `iso-8601` Rust crate (ISO-8601 date/time parsing,
validation and precision conversion) against its specification.

Modelling conventions, chosen to mirror the source faithfully:

* Input is a byte slice `&[u8]`; we embed it as `List Nat` (one `Nat` per byte).
* The crate is built on the `nom` parser-combinator library.  A nom parser
  returns `Result<(rest, value), Err>` where `Err` is one of
  `Incomplete` (streaming parsers wanting more input), `Error`
  (a recoverable format error) and `Failure` (an unrecoverable error).
  We embed this as the `PResult` type below, and each nom combinator used by
  the crate (`map`, `alt`, `opt`, `complete`, `cond`, `peek`, `not`,
  `map_res`, `preceded`, `pair`/`tuple` sequencing, `char`,
  `one_of`, `take_while_m_n`) as a Lean function with nom's documented
  semantics, including the streaming/complete distinction where the source
  picks one or the other.
* The sole numeric uses of `take_while_m_n` are with `m = n = k` digits,
  composed with `buf_to_int`; we embed each as a fixed-width digit field
  parser (`digitsN`) that consumes exactly `k` ASCII digits or errors.
* Rust `f32` fields (the `fraction` of a `LocalTime`) are embedded as exact
  rationals `ℚ`.  The Rust cast `as u8` / `as u32` (truncate toward zero and
  saturate at the type's bounds, since Rust 1.45) is embedded by `satCastU8`
  and `satCastU32`, and the `f32` remainder operator `%` by `remF`.
  Wherever a claim is settled at a concrete fraction we have checked that
  IEEE binary32 arithmetic and exact rational arithmetic agree at that input.
* Byte constants: 43 = '+', 45 = '-', 46 = '.', 58 = ':', 84 = 'T',
  87 = 'W', 90 = 'Z', 101 = 'e', 69 = 'E', 48..57 = '0'..'9'.

The files `src/date.rs` and `src/datetime.rs` of the crate (declared in
`lib.rs`) contain only the plain record/enum declarations of the date and
datetime value types; those declarations are modelled from the spec where
noted, everything else is translated from the source.
-/

/-- Outcome of a nom parser on a byte list: success with the remaining
input, a recoverable error, a needs-more-input signal, or an
unrecoverable failure. -/
inductive PResult (α : Type) where
  | ok (rest : List Nat) (val : α)
  | error
  | incomplete
  | failure
deriving Repr, DecidableEq

abbrev Parser (α : Type) := List Nat → PResult α

namespace PResult

/-- Map a function over the parsed value. -/
@[simp] def mapVal (f : α → β) : PResult α → PResult β
  | .ok r v => .ok r (f v)
  | .error => .error
  | .incomplete => .incomplete
  | .failure => .failure

end PResult

/-- Sequencing of nom parsers (the elaboration of `tuple`/`pair`/
`separated_pair`/`preceded`): run `p`, then run the continuation on the
remaining input; errors, incompleteness and failures propagate. -/
@[simp] def pbind (p : Parser α) (f : α → Parser β) : Parser β := fun i =>
  match p i with
  | .ok r v => f v r
  | .error => .error
  | .incomplete => .incomplete
  | .failure => .failure

/-- Parser returning a value without consuming input (the final value
construction of a `map(tuple(...), ...)`). -/
@[simp] def ppure (v : α) : Parser α := fun i => .ok i v

/-- nom `map`. -/
@[simp] def pmap (p : Parser α) (f : α → β) : Parser β := fun i =>
  (p i).mapVal f

/-- nom `alt` (binary): try `q` only when `p` fails with a recoverable
error; `Incomplete` and `Failure` abort the alternation. -/
@[simp] def palt (p q : Parser α) : Parser α := fun i =>
  match p i with
  | .error => q i
  | r => r

/-- nom `opt`: turn a recoverable error into `none` without consuming;
`Incomplete` and `Failure` still propagate. -/
@[simp] def popt (p : Parser α) : Parser (Option α) := fun i =>
  match p i with
  | .ok r v => .ok r (some v)
  | .error => .ok i none
  | .incomplete => .incomplete
  | .failure => .failure

/-- nom `complete`: convert `Incomplete` into a recoverable error. -/
@[simp] def pcomplete (p : Parser α) : Parser α := fun i =>
  match p i with
  | .incomplete => .error
  | r => r

/-- nom `cond`: run the parser only when the flag holds, else succeed with
`none` consuming nothing. -/
@[simp] def pcond (b : Bool) (p : Parser α) : Parser (Option α) := fun i =>
  if b then (p i).mapVal some else .ok i none

/-- nom `peek`: run the parser but do not consume input on success. -/
@[simp] def ppeek (p : Parser α) : Parser α := fun i =>
  match p i with
  | .ok _ v => .ok i v
  | e => e.mapVal (fun v => v)

/-- nom `not`: succeed exactly when the inner parser fails with a
recoverable error, consuming nothing. -/
@[simp] def pnot (p : Parser α) : Parser Unit := fun i =>
  match p i with
  | .ok _ _ => .error
  | .error => .ok i ()
  | .incomplete => .incomplete
  | .failure => .failure

/-- nom `character::complete::char`: match one exact byte; empty input is a
recoverable error. -/
@[simp] def pchar (c : Nat) : Parser Unit := fun i =>
  match i with
  | [] => .error
  | b :: r => if b = c then .ok r () else .error

/-- nom `character::streaming::char`: match one exact byte; empty input is
`Incomplete`. -/
@[simp] def pcharS (c : Nat) : Parser Unit := fun i =>
  match i with
  | [] => .incomplete
  | b :: r => if b = c then .ok r () else .error

/-- nom `character::streaming::one_of`: match one byte from a set; empty
input is `Incomplete`. -/
@[simp] def poneOfS (cs : List Nat) : Parser Nat := fun i =>
  match i with
  | [] => .incomplete
  | b :: r => if b ∈ cs then .ok r b else .error

/-- ASCII digit test (`nom::character::is_digit` on a byte). -/
@[simp] def isDigit (b : Nat) : Bool := 48 ≤ b && b ≤ 57

/-- Digit-fold `buf_to_int` from `parse/mod.rs`: repeated `×10 + digit`. -/
@[simp] def buf_to_int (l : List Nat) : Nat :=
  l.foldl (fun s d => s * 10 + (d - 48)) 0

/-- Embedding of `map(take_while_m_n(2, 2, is_digit), buf_to_int)`:
consume exactly two ASCII digits and fold them to a number (with exactly
two digits demanded, `take_while_m_n` succeeds iff the two leading bytes
are digits and never consumes more). -/
@[simp] def digits2 : Parser Nat := fun i =>
  match i with
  | a :: b :: r => if isDigit a && isDigit b then .ok r (buf_to_int [a, b]) else .error
  | _ => .error

/-- Embedding of `map(take_while_m_n(1, 1, is_digit), buf_to_int)`. -/
@[simp] def digits1 : Parser Nat := fun i =>
  match i with
  | a :: r => if isDigit a then .ok r (buf_to_int [a]) else .error
  | _ => .error

/-- Embedding of `map(take_while_m_n(3, 3, is_digit), buf_to_int)`. -/
@[simp] def digits3 : Parser Nat := fun i =>
  match i with
  | a :: b :: c :: r =>
      if isDigit a && isDigit b && isDigit c then .ok r (buf_to_int [a, b, c]) else .error
  | _ => .error

/-- Embedding of `map(take_while_m_n(4, 4, is_digit), buf_to_int)`. -/
@[simp] def digits4 : Parser Nat := fun i =>
  match i with
  | a :: b :: c :: d :: r =>
      if isDigit a && isDigit b && isDigit c && isDigit d then
        .ok r (buf_to_int [a, b, c, d])
      else .error
  | _ => .error

/-- The `sign` parser of `parse/mod.rs`: `alt((map(one_of("-−‐"),
|_| -1), map(char('+'), |_| 1)))` with streaming character parsers.  On
byte input a single byte can only ever equal the ASCII `-` of that set
(the two Unicode minus variants exceed one byte), so the set reduces to
`{45}`. -/
@[simp] def sign : Parser Int :=
  palt (pmap (poneOfS [45]) (fun _ => (-1 : Int))) (pmap (pcharS 43) (fun _ => (1 : Int)))

/-! ### The time data model (`src/time.rs`)

Numeric fields stored in unsigned Rust integers (`u8`) are embedded as
`Nat`; the signed timezone (`i16`) as `Int`; the `f32` fraction as `ℚ`. -/

/-- Local time `HmsTime` (4.2.2.2). -/
structure HmsTime where
  hour : Nat
  minute : Nat
  second : Nat
deriving Repr, DecidableEq

/-- A specific hour and minute, `HmTime` (4.2.2.3a). -/
structure HmTime where
  hour : Nat
  minute : Nat
deriving Repr, DecidableEq

/-- A specific hour, `HTime` (4.2.2.3b). -/
structure HTime where
  hour : Nat
deriving Repr, DecidableEq

/-- Local time with decimal fraction, `LocalTime<N>` (4.2.2.4). -/
structure LocalTime (N : Type) where
  naive : N
  fraction : ℚ
deriving Repr, DecidableEq

/-- Local time with timezone, `GlobalTime<N>` (4.2.4); `timezone` is the
difference from UTC in minutes (4.2.5.2); the source field `local` is a
Lean keyword, so it is named `loc` here. -/
structure GlobalTime (N : Type) where
  loc : LocalTime N
  timezone : Int
deriving Repr, DecidableEq

/-- Sum of a global and a local time, `AnyTime<N>`. -/
inductive AnyTime (N : Type) where
  | Global (t : GlobalTime N)
  | Local (t : LocalTime N)
deriving Repr, DecidableEq

/-- Precision-erased naive time, `ApproxNaiveTime`. -/
inductive ApproxNaiveTime where
  | HMS (t : HmsTime)
  | HM (t : HmTime)
  | H (t : HTime)
deriving Repr, DecidableEq

/-- Precision-erased local time, `ApproxLocalTime`. -/
inductive ApproxLocalTime where
  | HMS (t : LocalTime HmsTime)
  | HM (t : LocalTime HmTime)
  | H (t : LocalTime HTime)
deriving Repr, DecidableEq

/-- Precision-erased global time, `ApproxGlobalTime`. -/
inductive ApproxGlobalTime where
  | HMS (t : GlobalTime HmsTime)
  | HM (t : GlobalTime HmTime)
  | H (t : GlobalTime HTime)
deriving Repr, DecidableEq

/-- Precision-erased any time, `ApproxAnyTime`. -/
inductive ApproxAnyTime where
  | HMS (t : AnyTime HmsTime)
  | HM (t : AnyTime HmTime)
  | H (t : AnyTime HTime)
deriving Repr, DecidableEq

/-! ### Rust float-cast and remainder semantics

Rust `expr as u8` on a float truncates toward zero and saturates into
`0..=255` (`as u32` into `0..=4294967295`); `a % b` on floats is
`a - b * trunc(a / b)`. -/

/-- Truncation toward zero of a rational. -/
@[simp] def ratTrunc (q : ℚ) : Int := if q < 0 then ⌈q⌉ else ⌊q⌋

/-- Rust saturating float-to-`u8` cast. -/
@[simp] def satCastU8 (q : ℚ) : Nat := min 255 (ratTrunc q).toNat

/-- Rust saturating float-to-`u32` cast. -/
@[simp] def satCastU32 (q : ℚ) : Nat := min 4294967295 (ratTrunc q).toNat

/-- Rust float remainder by `1.0`: `q % 1.0 = q - trunc q`. -/
@[simp] def remF (q : ℚ) : ℚ := q - ratTrunc q

/-! ### Fraction accessors of `LocalTime` (`src/time.rs` lines 84-118) -/

/-- `LocalTime::<HmsTime>::nanosecond`: `(fraction * 1e9) as u32`. -/
@[simp] def LocalTime.nanosecondHms (t : LocalTime HmsTime) : Nat :=
  satCastU32 (t.fraction * 1000000000)

/-- `LocalTime::<HmTime>::second`: `(fraction * 60.) as u8`. -/
@[simp] def LocalTime.secondOfHm (t : LocalTime HmTime) : Nat :=
  satCastU8 (t.fraction * 60)

/-- `LocalTime::<HTime>::minute`: `(fraction * 60.) as u8`. -/
@[simp] def LocalTime.minuteOfH (t : LocalTime HTime) : Nat :=
  satCastU8 (t.fraction * 60)

/-- `LocalTime::<HTime>::second`: `(fraction * 3_600.) as u8 % 60`
(the cast binds tighter than `%`). -/
@[simp] def LocalTime.secondOfH (t : LocalTime HTime) : Nat :=
  satCastU8 (t.fraction * 3600) % 60

/-! ### Validity layer (`Valid` impls, `src/time.rs` lines 171-258) -/

/-- `Valid for HTime`: `hour <= 24`. -/
@[simp] def HTime.is_valid (t : HTime) : Bool := t.hour ≤ 24

/-- `Valid for HmTime`: `HTime::from(*self).is_valid() && minute <= 59`. -/
@[simp] def HmTime.is_valid (t : HmTime) : Bool :=
  HTime.is_valid ⟨t.hour⟩ && t.minute ≤ 59

/-- `Valid for HmsTime`: `HmTime::from(*self).is_valid() && second <= 60`
(leap seconds accepted on any day since they are not predictable). -/
@[simp] def HmsTime.is_valid (t : HmsTime) : Bool :=
  HmTime.is_valid ⟨t.hour, t.minute⟩ && t.second ≤ 60

/-- `Valid for LocalTime<N>`: naive part valid and `0 <= fraction < 1`. -/
@[simp] def LocalTime.is_valid (nv : N → Bool) (t : LocalTime N) : Bool :=
  nv t.naive && decide (0 ≤ t.fraction) && decide (t.fraction < 1)

/-- `Valid for GlobalTime<N>`: local part valid and
`-24*60 < timezone < 24*60`. -/
@[simp] def GlobalTime.is_valid (nv : N → Bool) (t : GlobalTime N) : Bool :=
  t.loc.is_valid nv && decide (-(24 * 60) < t.timezone) && decide (t.timezone < 24 * 60)

/-- `Valid for AnyTime<N>`. -/
@[simp] def AnyTime.is_valid (nv : N → Bool) : AnyTime N → Bool
  | .Global t => t.is_valid nv
  | .Local t => t.is_valid nv

/-- `Valid for ApproxLocalTime`. -/
@[simp] def ApproxLocalTime.is_valid : ApproxLocalTime → Bool
  | .HMS t => t.is_valid HmsTime.is_valid
  | .HM t => t.is_valid HmTime.is_valid
  | .H t => t.is_valid HTime.is_valid

/-- `Valid for ApproxGlobalTime`. -/
@[simp] def ApproxGlobalTime.is_valid : ApproxGlobalTime → Bool
  | .HMS t => t.is_valid HmsTime.is_valid
  | .HM t => t.is_valid HmTime.is_valid
  | .H t => t.is_valid HTime.is_valid

/-- `Valid for ApproxAnyTime`. -/
@[simp] def ApproxAnyTime.is_valid : ApproxAnyTime → Bool
  | .HMS t => t.is_valid HmsTime.is_valid
  | .HM t => t.is_valid HmTime.is_valid
  | .H t => t.is_valid HTime.is_valid

/-! ### Precision conversions (`From` impls, `src/time.rs` lines 260-467) -/

/-- `From<LocalTime<HmsTime>> for LocalTime<HmTime>`: fold the second into
the fraction, `fraction' = (second + fraction) / 60`. -/
@[simp] def localHmsToHm (t : LocalTime HmsTime) : LocalTime HmTime :=
  { naive := ⟨t.naive.hour, t.naive.minute⟩
    fraction := ((t.naive.second : ℚ) + t.fraction) / 60 }

/-- `From<LocalTime<HmsTime>> for LocalTime<HTime>`. -/
@[simp] def localHmsToH (t : LocalTime HmsTime) : LocalTime HTime :=
  { naive := ⟨t.naive.hour⟩
    fraction := (t.naive.minute : ℚ) / 60 + ((t.naive.second : ℚ) + t.fraction) / 3600 }

/-- `From<LocalTime<HmTime>> for LocalTime<HTime>`. -/
@[simp] def localHmToH (t : LocalTime HmTime) : LocalTime HTime :=
  { naive := ⟨t.naive.hour⟩
    fraction := ((t.naive.minute : ℚ) + t.fraction) / 60 }

/-- `From<LocalTime<HmTime>> for LocalTime<HmsTime>`: the widened second is
`t.second()` and the residual fraction `(fraction * 60.) % 1.`. -/
@[simp] def localHmToHms (t : LocalTime HmTime) : LocalTime HmsTime :=
  { naive := ⟨t.naive.hour, t.naive.minute, t.secondOfHm⟩
    fraction := remF (t.fraction * 60) }

/-- `From<LocalTime<HTime>> for LocalTime<HmsTime>`: the widened minute and
second are `t.minute()` and `t.second()`, and the residual fraction is
`(fraction * 3600.) % 1.`. -/
@[simp] def localHToHms (t : LocalTime HTime) : LocalTime HmsTime :=
  { naive := ⟨t.naive.hour, t.minuteOfH, t.secondOfH⟩
    fraction := remF (t.fraction * 3600) }

/-- `From<GlobalTime<HmsTime>> for GlobalTime<HmTime>`: convert the local
part, keep the timezone. -/
@[simp] def globalHmsToHm (t : GlobalTime HmsTime) : GlobalTime HmTime :=
  { loc := localHmsToHm t.loc, timezone := t.timezone }

/-- `From<GlobalTime<HmsTime>> for GlobalTime<HTime>`. -/
@[simp] def globalHmsToH (t : GlobalTime HmsTime) : GlobalTime HTime :=
  { loc := localHmsToH t.loc, timezone := t.timezone }

/-- `From<GlobalTime<HmTime>> for GlobalTime<HTime>`. -/
@[simp] def globalHmToH (t : GlobalTime HmTime) : GlobalTime HTime :=
  { loc := localHmToH t.loc, timezone := t.timezone }

/-- `From<GlobalTime<HmTime>> for GlobalTime<HmsTime>`. -/
@[simp] def globalHmToHms (t : GlobalTime HmTime) : GlobalTime HmsTime :=
  { loc := localHmToHms t.loc, timezone := t.timezone }

/-- `From<GlobalTime<HTime>> for GlobalTime<HmsTime>`. -/
@[simp] def globalHToHms (t : GlobalTime HTime) : GlobalTime HmsTime :=
  { loc := localHToHms t.loc, timezone := t.timezone }

/-! ### The fraction parser (`frac32`, `src/parse/mod.rs` lines 48-50)

`frac32` is `preceded(peek(char('.')), map_parser(recognize_float, float))`
with a streaming `char`: a lookahead `.` is required, then nom's float
token grammar `[+-]? ( digit+ ( . digit* )? | . digit+ ) ( [eE] [+-]?
digit+ )?` is recognized and the recognized bytes are parsed as a float.
We embed the float's numeric value as the exact rational the token
denotes. -/

/-- Longest prefix of bytes satisfying a predicate, with the rest
(the recursion underlying nom's `digit0`/`digit1`). -/
@[simp] def spanPred (p : Nat → Bool) : List Nat → List Nat × List Nat
  | [] => ([], [])
  | b :: r =>
    if p b then
      ((spanPred p r).1.cons b, (spanPred p r).2)
    else ([], b :: r)

/-- nom `digit1`: one or more ASCII digits, returning them. -/
@[simp] def digit1 : Parser (List Nat) := fun i =>
  match spanPred isDigit i with
  | ([], _) => .error
  | (ds, r) => .ok r ds

/-- nom `digit0`: zero or more ASCII digits. -/
@[simp] def digit0 : Parser (List Nat) := fun i =>
  match spanPred isDigit i with
  | (ds, r) => .ok r ds

/-- nom `recognize_float`, returning the consumed token's components:
optional sign byte, integer digits, optional fractional digits (present
iff a `.` was consumed), and optional exponent (sign flag and digits).
The token grammar is `[+-]? ( digit+ ( . digit* )? | . digit+ )
( [eE] [+-]? digit+ )?`. -/
@[simp] def recognize_float :
    Parser (Option Nat × List Nat × Option (List Nat) × Option (Bool × List Nat)) :=
  pbind (popt (palt (pmap (pchar 43) fun _ => 43) (pmap (pchar 45) fun _ => 45))) fun sg =>
  pbind
    (palt
      (pbind digit1 fun ip =>
        pbind (popt (pbind (pchar 46) fun _ => pmap digit0 fun fp => fp)) fun fp =>
        ppure (ip, fp))
      (pbind (pchar 46) fun _ => pmap digit1 fun fp => (([] : List Nat), some fp)))
    fun mant =>
  pbind
    (popt
      (pbind (palt (pchar 101) (pchar 69)) fun _ =>
       pbind (popt (palt (pmap (pchar 43) fun _ => false) (pmap (pchar 45) fun _ => true)))
         fun es =>
       pmap digit1 fun eds => (es.getD false, eds)))
    fun ex =>
  ppure (sg, mant.1, mant.2, ex)

/-- Numeric value of a recognized float token, as an exact rational:
`± (int . frac) × 10 ^ (± exp)`. -/
@[simp] def floatTokenValue
    (t : Option Nat × List Nat × Option (List Nat) × Option (Bool × List Nat)) : ℚ :=
  let mag : ℚ := (buf_to_int t.2.1 : ℚ) +
    (match t.2.2.1 with
     | none => 0
     | some fd => (buf_to_int fd : ℚ) / (10 : ℚ) ^ fd.length)
  let sized : ℚ :=
    match t.2.2.2 with
    | none => mag
    | some (eneg, eds) =>
        if eneg then mag / (10 : ℚ) ^ buf_to_int eds else mag * (10 : ℚ) ^ buf_to_int eds
  if t.1 = some 45 then -sized else sized

/-- `frac32`: lookahead `.`, then the float token, valued exactly. -/
@[simp] def frac32 : Parser ℚ :=
  pbind (ppeek (pcharS 46)) fun _ => pmap recognize_float floatTokenValue

/-! ### The time grammar (`src/parse/time.rs`) -/

/-- `hour`: two ASCII digits. -/
@[simp] def hour : Parser Nat := digits2

/-- `minute`: two ASCII digits. -/
@[simp] def minute : Parser Nat := digits2

/-- `second`: two ASCII digits. -/
@[simp] def second : Parser Nat := digits2

/-- `time_hms_format`: `hour (":" if extended) minute (":" if extended)
second`. -/
@[simp] def time_hms_format (extended : Bool) : Parser HmsTime :=
  pbind hour fun h =>
  pbind (pcond extended (pchar 58)) fun _ =>
  pbind minute fun m =>
  pbind (pcond extended (pchar 58)) fun _ =>
  pmap second fun s => ⟨h, m, s⟩

/-- `time_hms`: extended form first, then basic. -/
@[simp] def time_hms : Parser HmsTime :=
  palt (time_hms_format true) (time_hms_format false)

/-- `time_hm_format`: `hour (":" if extended) minute`. -/
@[simp] def time_hm_format (extended : Bool) : Parser HmTime :=
  pbind hour fun h =>
  pbind (pcond extended (pchar 58)) fun _ =>
  pmap minute fun m => ⟨h, m⟩

/-- `time_hm`: extended form first, then basic. -/
@[simp] def time_hm : Parser HmTime :=
  palt (time_hm_format true) (time_hm_format false)

/-- `time_h`: a bare two-digit hour. -/
@[simp] def time_h : Parser HTime := pmap hour fun h => ⟨h⟩

/-- `timezone_utc`: the literal `Z`, offset 0. -/
@[simp] def timezone_utc : Parser Int := pmap (pchar 90) fun _ => 0

/-- `timezone_fixed`: `sign hour [[":"] minute]`, valued
`sign * (hour * 60 + minute)` in minutes. -/
@[simp] def timezone_fixed : Parser Int :=
  pbind sign fun sg =>
  pbind hour fun h =>
  pmap (popt (pcomplete (pbind (popt (pchar 58)) fun _ => minute))) fun m =>
    sg * ((h : Int) * 60 + (m.getD 0 : Int))

/-- `timezone`: `Z` or a fixed signed offset. -/
@[simp] def timezone : Parser Int := palt timezone_utc timezone_fixed

/-- The `time_local_accuracy!` macro body: `opt('T')`, the naive time,
then an optional complete fraction (defaulting to 0). -/
@[simp] def time_local_format (naive : Parser N) : Parser (LocalTime N) :=
  pbind (popt (pchar 84)) fun _ =>
  pbind naive fun nv =>
  pmap (popt (pcomplete frac32)) fun fr => ⟨nv, fr.getD 0⟩

/-- `time_local_hms`. -/
@[simp] def time_local_hms : Parser (LocalTime HmsTime) := time_local_format time_hms

/-- `time_local_hm`. -/
@[simp] def time_local_hm : Parser (LocalTime HmTime) := time_local_format time_hm

/-- `time_local_h`. -/
@[simp] def time_local_h : Parser (LocalTime HTime) := time_local_format time_h

/-- The `time_global_accuracy!` macro body: a local time immediately
followed by a mandatory (complete) timezone. -/
@[simp] def time_global_format (loc : Parser (LocalTime N)) : Parser (GlobalTime N) :=
  pbind loc fun l =>
  pmap (pcomplete timezone) fun tz => ⟨l, tz⟩

/-- `time_global_hms`. -/
@[simp] def time_global_hms : Parser (GlobalTime HmsTime) := time_global_format time_local_hms

/-- `time_global_hm`. -/
@[simp] def time_global_hm : Parser (GlobalTime HmTime) := time_global_format time_local_hm

/-- `time_global_h`. -/
@[simp] def time_global_h : Parser (GlobalTime HTime) := time_global_format time_local_h

/-- The `time_any_accuracy!` macro body: global first, then local, each
wrapped in `complete`. -/
@[simp] def time_any_format (loc : Parser (LocalTime N)) (glob : Parser (GlobalTime N)) :
    Parser (AnyTime N) :=
  palt (pcomplete (pmap glob AnyTime.Global)) (pcomplete (pmap loc AnyTime.Local))

/-- `time_any_hms`. -/
@[simp] def time_any_hms : Parser (AnyTime HmsTime) :=
  time_any_format time_local_hms time_global_hms

/-- `time_any_hm`. -/
@[simp] def time_any_hm : Parser (AnyTime HmTime) :=
  time_any_format time_local_hm time_global_hm

/-- `time_any_h`. -/
@[simp] def time_any_h : Parser (AnyTime HTime) :=
  time_any_format time_local_h time_global_h

/-- `time_naive_approx`: HMS, then HM, then H, each wrapped in
`complete`. -/
@[simp] def time_naive_approx : Parser ApproxNaiveTime :=
  palt (pcomplete (pmap time_hms ApproxNaiveTime.HMS))
    (palt (pcomplete (pmap time_hm ApproxNaiveTime.HM))
      (pcomplete (pmap time_h ApproxNaiveTime.H)))

/-- `time_local_approx`: an approximate naive time with an optional
complete fraction distributed into the matching precision. -/
@[simp] def time_local_approx : Parser ApproxLocalTime :=
  pbind time_naive_approx fun nv =>
  pmap (popt (pcomplete frac32)) fun fr =>
    match nv with
    | .HMS n => .HMS ⟨n, fr.getD 0⟩
    | .HM n => .HM ⟨n, fr.getD 0⟩
    | .H n => .H ⟨n, fr.getD 0⟩

/-- `time_global_approx`: an approximate local time followed by a
mandatory timezone. -/
@[simp] def time_global_approx : Parser ApproxGlobalTime :=
  pbind time_local_approx fun l =>
  pmap timezone fun tz =>
    match l with
    | .HMS l => .HMS ⟨l, tz⟩
    | .HM l => .HM ⟨l, tz⟩
    | .H l => .H ⟨l, tz⟩

/-- `time_any_approx`: any-HMS, then any-HM, then any-H. -/
@[simp] def time_any_approx : Parser ApproxAnyTime :=
  palt (pmap time_any_hms ApproxAnyTime.HMS)
    (palt (pmap time_any_hm ApproxAnyTime.HM)
      (pmap time_any_h ApproxAnyTime.H))

/-! ### The date data model

Modelled from the spec: the crate's `src/date.rs` (declared in `lib.rs`)
is not present under `src/`; per spec section 3 it declares the seven
plain date records (century; year; year-month; year-month-day; year-week;
year-week-weekday; year-ordinalday), the tagged union `Date` over the
three exact calendar systems {YMD, WD, O}, the tagged union `ApproxDate`
over all seven variants, and the conversion from `Date` into
`ApproxDate`.  Signed year/century fields (`i8`/`i16` in storage) are
embedded as `Int`, unsigned fields as `Nat`. -/

/-- Modelled from the spec: `CDate { century }`, a signed two-digit
century. -/
structure CDate where
  century : Int
deriving Repr, DecidableEq

/-- Modelled from the spec: `YDate { year }`, a signed four-digit year. -/
structure YDate where
  year : Int
deriving Repr, DecidableEq

/-- Modelled from the spec: `YmDate { year, month }`. -/
structure YmDate where
  year : Int
  month : Nat
deriving Repr, DecidableEq

/-- Modelled from the spec: `YmdDate { year, month, day }`. -/
structure YmdDate where
  year : Int
  month : Nat
  day : Nat
deriving Repr, DecidableEq

/-- Modelled from the spec: `WDate { year, week }`. -/
structure WDate where
  year : Int
  week : Nat
deriving Repr, DecidableEq

/-- Modelled from the spec: `WdDate { year, week, day }`. -/
structure WdDate where
  year : Int
  week : Nat
  day : Nat
deriving Repr, DecidableEq

/-- Modelled from the spec: `ODate { year, day }`, an ordinal
day-of-year date. -/
structure ODate where
  year : Int
  day : Nat
deriving Repr, DecidableEq

/-- Modelled from the spec: `Date`, the tagged union over the three exact
calendar systems. -/
inductive Date where
  | YMD (d : YmdDate)
  | WD (d : WdDate)
  | O (d : ODate)
deriving Repr, DecidableEq

/-- Modelled from the spec: `ApproxDate`, the tagged union over all seven
date precisions. -/
inductive ApproxDate where
  | YMD (d : YmdDate)
  | WD (d : WdDate)
  | O (d : ODate)
  | W (d : WDate)
  | YM (d : YmDate)
  | Y (d : YDate)
  | C (d : CDate)
deriving Repr, DecidableEq

/-- Modelled from the spec: the conversion from the exact `Date` union
into `ApproxDate` (used by `date_approx` as `map(date, |x| x.into())`). -/
@[simp] def Date.toApprox : Date → ApproxDate
  | .YMD d => .YMD d
  | .WD d => .WD d
  | .O d => .O d

/-! ### The date grammar (`src/parse/date.rs`) -/

/-- `positive_century`: two ASCII digits. -/
@[simp] def positive_century : Parser Nat := digits2

/-- `century`: an optional sign then a positive century, valued
`sign * century`. -/
@[simp] def century : Parser Int :=
  pbind (popt sign) fun sg =>
  pmap positive_century fun c => sg.getD 1 * (c : Int)

/-- `positive_year`: four ASCII digits (expanded years unsupported). -/
@[simp] def positive_year : Parser Nat := digits4

/-- `year`: an optional sign then a positive year, valued
`sign * year`. -/
@[simp] def year : Parser Int :=
  pbind (popt sign) fun sg =>
  pmap positive_year fun y => sg.getD 1 * (y : Int)

/-- `month`: two ASCII digits. -/
@[simp] def month : Parser Nat := digits2

/-- `day`: two ASCII digits. -/
@[simp] def day : Parser Nat := digits2

/-- `year_week`: two ASCII digits. -/
@[simp] def year_week : Parser Nat := digits2

/-- `year_day`: three ASCII digits. -/
@[simp] def year_day : Parser Nat := digits3

/-- `week_day`: one ASCII digit. -/
@[simp] def week_day : Parser Nat := digits1

/-- `date_ymd_format`: `year ("-" if extended) month ("-" if extended)
day`. -/
@[simp] def date_ymd_format (extended : Bool) : Parser YmdDate :=
  pbind year fun y =>
  pbind (pcond extended (pchar 45)) fun _ =>
  pbind month fun m =>
  pbind (pcond extended (pchar 45)) fun _ =>
  pmap day fun d => ⟨y, m, d⟩

/-- `date_ymd`: extended form first, then basic. -/
@[simp] def date_ymd : Parser YmdDate :=
  palt (date_ymd_format true) (date_ymd_format false)

/-- `date_wd_format`: `year ("-" if extended) "W" week ("-" if extended)
weekday`. -/
@[simp] def date_wd_format (extended : Bool) : Parser WdDate :=
  pbind year fun y =>
  pbind (pcond extended (pchar 45)) fun _ =>
  pbind (pchar 87) fun _ =>
  pbind year_week fun w =>
  pbind (pcond extended (pchar 45)) fun _ =>
  pmap week_day fun d => ⟨y, w, d⟩

/-- `date_wd`: extended form first, then basic. -/
@[simp] def date_wd : Parser WdDate :=
  palt (date_wd_format true) (date_wd_format false)

/-- `date_o_format`: `year ("-" if extended) ordinal-day`. -/
@[simp] def date_o_format (extended : Bool) : Parser ODate :=
  pbind year fun y =>
  pbind (pcond extended (pchar 45)) fun _ =>
  pmap year_day fun d => ⟨y, d⟩

/-- `date_o`: extended form first, then basic. -/
@[simp] def date_o : Parser ODate :=
  palt (date_o_format true) (date_o_format false)

/-- `date`: week-date, then year-month-day, then ordinal, each wrapped in
`complete`. -/
@[simp] def date : Parser Date :=
  palt (pcomplete (pmap date_wd Date.WD))
    (palt (pcomplete (pmap date_ymd Date.YMD))
      (pcomplete (pmap date_o Date.O)))

/-- `date_w_format`: `year ("-" if extended) "W" week`. -/
@[simp] def date_w_format (extended : Bool) : Parser WDate :=
  pbind year fun y =>
  pbind (pcond extended (pchar 45)) fun _ =>
  pbind (pchar 87) fun _ =>
  pmap year_week fun w => ⟨y, w⟩

/-- `date_w`: extended form first, then basic. -/
@[simp] def date_w : Parser WDate :=
  palt (date_w_format true) (date_w_format false)

/-- `date_ym_format`: `year ("-" if extended) month`. -/
@[simp] def date_ym_format (extended : Bool) : Parser YmDate :=
  pbind year fun y =>
  pbind (pcond extended (pchar 45)) fun _ =>
  pmap month fun m => ⟨y, m⟩

/-- `date_ym`: extended form first, then basic. -/
@[simp] def date_ym : Parser YmDate :=
  palt (date_ym_format true) (date_ym_format false)

/-- `date_y`: a bare (signed) year. -/
@[simp] def date_y : Parser YDate := pmap year fun y => ⟨y⟩

/-- `date_c`: a bare (signed) century. -/
@[simp] def date_c : Parser CDate := pmap century fun c => ⟨c⟩

/-- `date_approx`: the exact `date` union, then week, year-month, year and
century in decreasing-precision order. -/
@[simp] def date_approx : Parser ApproxDate :=
  palt (pmap date Date.toApprox)
    (palt (pmap date_w ApproxDate.W)
      (palt (pmap date_ym ApproxDate.YM)
        (palt (pmap date_y ApproxDate.Y)
          (pmap date_c ApproxDate.C))))

/-! ### The datetime data model

Modelled from the spec: the crate's `src/datetime.rs` (declared in
`lib.rs`) is not present under `src/`; per spec section 3 it declares the
generic composite `DateTime<D, T> { date, time }` and the tagged union
`PartialDateTime<D, T>` over date-only, time-only and combined values. -/

/-- Modelled from the spec: `DateTime<D, T>`, a date paired with a
time. -/
structure DateTime (D T : Type) where
  date : D
  time : T
deriving Repr, DecidableEq

/-- Modelled from the spec: `PartialDateTime<D, T>`, date-only, time-only
or combined. -/
inductive PartialDateTime (D T : Type) where
  | Date (d : D)
  | Time (t : T)
  | DateTime (dt : DateTime D T)
deriving Repr, DecidableEq

/-! ### The datetime grammar (`src/parse/datetime.rs`) -/

/-- The `datetime!` macro body: a date parser, a mandatory literal `T`, a
lookahead asserting the next byte is not another `T`, then a time
parser. -/
@[simp] def datetime_format (dp : Parser D) (tp : Parser T) : Parser (DateTime D T) :=
  pbind dp fun d =>
  pbind (pchar 84) fun _ =>
  pbind (ppeek (pnot (pchar 84))) fun _ =>
  pmap tp fun t => ⟨d, t⟩

/-- `datetime_any_hms`. -/
@[simp] def datetime_any_hms : Parser (DateTime Date (AnyTime HmsTime)) :=
  datetime_format date time_any_hms

/-- `datetime_local_hms`. -/
@[simp] def datetime_local_hms : Parser (DateTime Date (LocalTime HmsTime)) :=
  datetime_format date time_local_hms

/-- `datetime_global_hms`. -/
@[simp] def datetime_global_hms : Parser (DateTime Date (GlobalTime HmsTime)) :=
  datetime_format date time_global_hms

/-- `datetime_approx_any_approx`. -/
@[simp] def datetime_approx_any_approx : Parser (DateTime ApproxDate ApproxAnyTime) :=
  datetime_format date_approx time_any_approx

/-- The byte-scan guard of `partial_datetime_approx_any_approx` deciding
whether the date sub-parse is attempted:
`(!i.is_empty() && i[1..].find_token('T')) || (i.get(0) != Some(&b'T') &&
!i.find_token(':'))`. -/
@[simp] def partial_datetime_guard (i : List Nat) : Bool :=
  (!i.isEmpty && (i.drop 1).contains 84) || (!(i.head? == some 84) && !i.contains 58)

/-- `partial_datetime_approx_any_approx`: the guarded optional date, an
optional `T`, an optional double-`T` lookahead, an optional time, then the
`map_res` closure.  nom's `map_res` turns any error of the closure —
including the `nom::Err::Incomplete` the closure builds for the
neither-date-nor-time case — into a recoverable parse error
(`ErrorKind::MapRes`). -/
@[simp] def partial_datetime_approx_any_approx :
    Parser (PartialDateTime ApproxDate ApproxAnyTime) := fun i =>
  match
    (pbind (pcond (partial_datetime_guard i) (popt date_approx)) fun d =>
     pbind (popt (pcomplete (pchar 84))) fun _ =>
     pbind (popt (pcomplete (ppeek (pnot (pchar 84))))) fun _ =>
     pmap (popt time_any_approx) fun t => (d.join, t)) i
  with
  | .ok r (some d, some t) => .ok r (.DateTime ⟨d, t⟩)
  | .ok r (some d, none) => .ok r (.Date d)
  | .ok r (none, some t) => .ok r (.Time t)
  | .ok _ (none, none) => .error
  | .error => .error
  | .incomplete => .incomplete
  | .failure => .failure

/-! ### The `FromStr` entry point (`impl_fromstr_parse!`, `src/lib.rs`)

`from_str` runs the parser on the whole byte string, keeps only the
parsed value (`map(|x| x.1)`, discarding the unconsumed rest), maps any
parse failure to `Error::InvalidFormat`, and then gates the value through
its validity predicate, mapping invalid values to
`Error::InvalidDate`. -/

/-- The two error values of `crate::Error`. -/
inductive CrateError where
  | InvalidFormat
  | InvalidDate
deriving Repr, DecidableEq

/-- Embedding of the `impl_fromstr_parse!` macro body, generic over the
parser and the type's validity predicate. -/
@[simp] def from_str (p : Parser α) (valid : α → Bool) (s : List Nat) :
    Except CrateError α :=
  match p s with
  | .ok _ v => if valid v then .ok v else .error .InvalidDate
  | _ => .error .InvalidFormat

/-- `FromStr for LocalTime<HmsTime>` via `time_local_hms`. -/
@[simp] def from_str_local_hms : List Nat → Except CrateError (LocalTime HmsTime) :=
  from_str time_local_hms (LocalTime.is_valid HmsTime.is_valid)

/-- `FromStr for GlobalTime<HmsTime>` via `time_global_hms`. -/
@[simp] def from_str_global_hms : List Nat → Except CrateError (GlobalTime HmsTime) :=
  from_str time_global_hms (GlobalTime.is_valid HmsTime.is_valid)

/-- `FromStr for GlobalTime<HTime>` via `time_global_h`. -/
@[simp] def from_str_global_h : List Nat → Except CrateError (GlobalTime HTime) :=
  from_str time_global_h (GlobalTime.is_valid HTime.is_valid)

/-- A parse outcome that consumed the entire input. -/
@[simp] def full_match : PResult α → Bool
  | .ok [] _ => true
  | _ => false

/-- Defined from the spec's words for the order-independence statement:
the top-level exact-date alternation with its three branches tried in the
reverse order (ordinal, then year-month-day, then week-date). -/
@[simp] def date_rev : Parser Date :=
  palt (pcomplete (pmap date_o Date.O))
    (palt (pcomplete (pmap date_ymd Date.YMD))
      (pcomplete (pmap date_wd Date.WD)))

/-- Defined from the spec's words, for comparison with the source guard:
attempt the date sub-parse exactly when a `T` occurs somewhere in the
input after its first character, or the input does not start with `T` and
contains no `:`. -/
@[simp] def partial_guard_spec (i : List Nat) : Bool :=
  (i.drop 1).contains 84 || (!(i.head? == some 84) && !i.contains 58)

/-! ### Inversion lemmas for the combinator layer -/

theorem pbind_eq_ok {p : Parser α} {f : α → Parser β} {i r v} :
    pbind p f i = .ok r v ↔ ∃ r1 w, p i = .ok r1 w ∧ f w r1 = .ok r v := by
  constructor
  · intro h
    cases hp : p i with
    | ok r1 w => exact ⟨r1, w, rfl, by simpa [pbind, hp] using h⟩
    | error => simp [pbind, hp] at h
    | incomplete => simp [pbind, hp] at h
    | failure => simp [pbind, hp] at h
  · rintro ⟨r1, w, hp, hf⟩
    simp [pbind, hp, hf]

theorem pmap_eq_ok {p : Parser α} {f : α → β} {i r v} :
    pmap p f i = .ok r v ↔ ∃ w, p i = .ok r w ∧ v = f w := by
  constructor
  · intro h
    cases hp : p i with
    | ok r1 w =>
        refine ⟨w, ?_, ?_⟩ <;> simp [pmap, hp] at h <;> simp [hp, h.1, h.2]
    | error => simp [pmap, hp] at h
    | incomplete => simp [pmap, hp] at h
    | failure => simp [pmap, hp] at h
  · rintro ⟨w, hp, hf⟩
    simp [pmap, hp, hf]

theorem palt_eq_ok {p q : Parser α} {i r v} :
    palt p q i = .ok r v ↔ p i = .ok r v ∨ (p i = .error ∧ q i = .ok r v) := by
  cases h : p i <;> simp [palt, h]

theorem pcomplete_eq_ok {p : Parser α} {i r v} :
    pcomplete p i = .ok r v ↔ p i = .ok r v := by
  cases h : p i <;> simp [pcomplete, h]

theorem ppure_eq_ok {v : α} {i r w} :
    ppure v i = .ok r w ↔ r = i ∧ w = v := by
  simp [ppure, eq_comm, and_comm]

theorem pchar_eq_ok {c : Nat} {i r v} :
    pchar c i = .ok r v ↔ i = c :: r := by
  cases i with
  | nil => simp
  | cons b t => by_cases hb : b = c <;> simp [hb]

theorem pcond_true_eq_ok {p : Parser α} {i r v} :
    pcond true p i = .ok r v ↔ ∃ w, p i = .ok r w ∧ v = some w := by
  constructor
  · intro h
    cases hp : p i with
    | ok r1 w =>
        refine ⟨w, ?_, ?_⟩ <;> simp [pcond, hp] at h <;> simp [hp, h.1, h.2]
    | error => simp [pcond, hp] at h
    | incomplete => simp [pcond, hp] at h
    | failure => simp [pcond, hp] at h
  · rintro ⟨w, hp, hf⟩
    simp [pcond, hp, hf]

theorem pcond_false_eq_ok {p : Parser α} {i r v} :
    pcond false p i = .ok r v ↔ r = i ∧ v = none := by
  simp [pcond, eq_comm, and_comm]

theorem digits2_eq_ok {i r n} (h : digits2 i = .ok r n) :
    ∃ a b, i = a :: b :: r ∧ isDigit a = true ∧ isDigit b = true := by
  match i with
  | [] => simp at h
  | [a] => simp at h
  | a :: b :: t =>
      simp only [digits2] at h
      split at h
      next hc =>
        cases h
        have hd := (Bool.and_eq_true ..).mp hc
        exact ⟨a, b, rfl, hd.1, hd.2⟩
      next => cases h

theorem digits1_eq_ok {i r n} (h : digits1 i = .ok r n) :
    ∃ a, i = a :: r ∧ isDigit a = true := by
  match i with
  | [] => simp at h
  | a :: t =>
      simp only [digits1] at h
      split at h
      next hc =>
        cases h
        exact ⟨a, rfl, hc⟩
      next => cases h

theorem digits3_eq_ok {i r n} (h : digits3 i = .ok r n) :
    ∃ a b c, i = a :: b :: c :: r ∧ isDigit a = true ∧ isDigit b = true ∧ isDigit c = true := by
  match i with
  | [] => simp at h
  | [a] => simp at h
  | [a, b] => simp at h
  | a :: b :: c :: t =>
      simp only [digits3] at h
      split at h
      next hc =>
        cases h
        have h1 := (Bool.and_eq_true ..).mp hc
        have h2 := (Bool.and_eq_true ..).mp h1.1
        exact ⟨a, b, c, rfl, h2.1, h2.2, h1.2⟩
      next => cases h

theorem digits4_eq_ok {i r n} (h : digits4 i = .ok r n) :
    ∃ a b c d, i = a :: b :: c :: d :: r ∧ isDigit a = true ∧ isDigit b = true ∧
      isDigit c = true ∧ isDigit d = true := by
  match i with
  | [] => simp at h
  | [a] => simp at h
  | [a, b] => simp at h
  | [a, b, c] => simp at h
  | a :: b :: c :: d :: t =>
      simp only [digits4] at h
      split at h
      next hc =>
        cases h
        have h1 := (Bool.and_eq_true ..).mp hc
        have h2 := (Bool.and_eq_true ..).mp h1.1
        have h3 := (Bool.and_eq_true ..).mp h2.1
        exact ⟨a, b, c, d, rfl, h3.1, h3.2, h2.2, h1.2⟩
      next => cases h

/-! ### Shape of whole-input matches of the exact date grammars

Every exact date grammar starts with the same `year` parser, so two
grammars matching the same input agree on the remaining input `r` after
the year; the lemmas below pin down the exact shape `r` must have for
each grammar to consume the entire input. -/

theorem date_ymd_ext_full_shape {i : List Nat} {v : YmdDate}
    (h : date_ymd_format true i = .ok [] v) :
    ∃ r y a b c d, year i = .ok r y ∧ isDigit a = true ∧ isDigit b = true ∧
      isDigit c = true ∧ isDigit d = true ∧ r = [45, a, b, 45, c, d] := by
  rcases pbind_eq_ok.mp h with ⟨r1, y, hy, h2⟩
  rcases pbind_eq_ok.mp h2 with ⟨r2, s1, hc1, h3⟩
  rcases pcond_true_eq_ok.mp hc1 with ⟨u, hch, hs1⟩
  have hr1 := pchar_eq_ok.mp hch
  rcases pbind_eq_ok.mp h3 with ⟨r3, m, hm, h4⟩
  rcases digits2_eq_ok hm with ⟨a, b, hr2, ha, hb⟩
  rcases pbind_eq_ok.mp h4 with ⟨r4, s2, hc2, h5⟩
  rcases pcond_true_eq_ok.mp hc2 with ⟨u2, hch2, hs2⟩
  have hr3 := pchar_eq_ok.mp hch2
  rcases pmap_eq_ok.mp h5 with ⟨d, hd, hv⟩
  rcases digits2_eq_ok hd with ⟨c, e, hr4, hcd, hed⟩
  exact ⟨r1, y, a, b, c, e, hy, ha, hb, hcd, hed, by
    rw [hr1, hr2, hr3, hr4]⟩

theorem date_ymd_basic_full_shape {i : List Nat} {v : YmdDate}
    (h : date_ymd_format false i = .ok [] v) :
    ∃ r y a b c d, year i = .ok r y ∧ isDigit a = true ∧ isDigit b = true ∧
      isDigit c = true ∧ isDigit d = true ∧ r = [a, b, c, d] := by
  rcases pbind_eq_ok.mp h with ⟨r1, y, hy, h2⟩
  rcases pbind_eq_ok.mp h2 with ⟨r2, s1, hc1, h3⟩
  rcases pcond_false_eq_ok.mp hc1 with ⟨hr12, hs1⟩
  rcases pbind_eq_ok.mp h3 with ⟨r3, m, hm, h4⟩
  rcases digits2_eq_ok hm with ⟨a, b, hr2s, ha, hb⟩
  rcases pbind_eq_ok.mp h4 with ⟨r4, s2, hc2, h5⟩
  rcases pcond_false_eq_ok.mp hc2 with ⟨hr34, hs2⟩
  rcases pmap_eq_ok.mp h5 with ⟨d, hd, hv⟩
  rcases digits2_eq_ok hd with ⟨c, e, hr4s, hcd, hed⟩
  exact ⟨r1, y, a, b, c, e, hy, ha, hb, hcd, hed, by
    rw [← hr12, hr2s, ← hr34, hr4s]⟩

theorem date_o_ext_full_shape {i : List Nat} {v : ODate}
    (h : date_o_format true i = .ok [] v) :
    ∃ r y a b c, year i = .ok r y ∧ isDigit a = true ∧ isDigit b = true ∧
      isDigit c = true ∧ r = [45, a, b, c] := by
  rcases pbind_eq_ok.mp h with ⟨r1, y, hy, h2⟩
  rcases pbind_eq_ok.mp h2 with ⟨r2, s1, hc1, h3⟩
  rcases pcond_true_eq_ok.mp hc1 with ⟨u, hch, hs1⟩
  have hr1 := pchar_eq_ok.mp hch
  rcases pmap_eq_ok.mp h3 with ⟨d, hd, hv⟩
  rcases digits3_eq_ok hd with ⟨a, b, c, hr2, ha, hb, hc⟩
  exact ⟨r1, y, a, b, c, hy, ha, hb, hc, by rw [hr1, hr2]⟩

theorem date_o_basic_full_shape {i : List Nat} {v : ODate}
    (h : date_o_format false i = .ok [] v) :
    ∃ r y a b c, year i = .ok r y ∧ isDigit a = true ∧ isDigit b = true ∧
      isDigit c = true ∧ r = [a, b, c] := by
  rcases pbind_eq_ok.mp h with ⟨r1, y, hy, h2⟩
  rcases pbind_eq_ok.mp h2 with ⟨r2, s1, hc1, h3⟩
  rcases pcond_false_eq_ok.mp hc1 with ⟨hr12, hs1⟩
  rcases pmap_eq_ok.mp h3 with ⟨d, hd, hv⟩
  rcases digits3_eq_ok hd with ⟨a, b, c, hr2, ha, hb, hc⟩
  exact ⟨r1, y, a, b, c, hy, ha, hb, hc, by rw [← hr12, hr2]⟩

theorem date_wd_ext_full_shape {i : List Nat} {v : WdDate}
    (h : date_wd_format true i = .ok [] v) :
    ∃ r y a b c, year i = .ok r y ∧ isDigit a = true ∧ isDigit b = true ∧
      isDigit c = true ∧ r = [45, 87, a, b, 45, c] := by
  rcases pbind_eq_ok.mp h with ⟨r1, y, hy, h2⟩
  rcases pbind_eq_ok.mp h2 with ⟨r2, s1, hc1, h3⟩
  rcases pcond_true_eq_ok.mp hc1 with ⟨u, hch, hs1⟩
  have hr1 := pchar_eq_ok.mp hch
  rcases pbind_eq_ok.mp h3 with ⟨r3, s2, hw, h4⟩
  have hr2 := pchar_eq_ok.mp hw
  rcases pbind_eq_ok.mp h4 with ⟨r4, wk, hwk, h5⟩
  rcases digits2_eq_ok hwk with ⟨a, b, hr3, ha, hb⟩
  rcases pbind_eq_ok.mp h5 with ⟨r5, s3, hc2, h6⟩
  rcases pcond_true_eq_ok.mp hc2 with ⟨u2, hch2, hs3⟩
  have hr4 := pchar_eq_ok.mp hch2
  rcases pmap_eq_ok.mp h6 with ⟨d, hd, hv⟩
  rcases digits1_eq_ok hd with ⟨c, hr5, hc⟩
  exact ⟨r1, y, a, b, c, hy, ha, hb, hc, by rw [hr1, hr2, hr3, hr4, hr5]⟩

theorem date_wd_basic_full_shape {i : List Nat} {v : WdDate}
    (h : date_wd_format false i = .ok [] v) :
    ∃ r y a b c, year i = .ok r y ∧ isDigit a = true ∧ isDigit b = true ∧
      isDigit c = true ∧ r = [87, a, b, c] := by
  rcases pbind_eq_ok.mp h with ⟨r1, y, hy, h2⟩
  rcases pbind_eq_ok.mp h2 with ⟨r2, s1, hc1, h3⟩
  rcases pcond_false_eq_ok.mp hc1 with ⟨hr12, hs1⟩
  rcases pbind_eq_ok.mp h3 with ⟨r3, s2, hw, h4⟩
  have hr2 := pchar_eq_ok.mp hw
  rcases pbind_eq_ok.mp h4 with ⟨r4, wk, hwk, h5⟩
  rcases digits2_eq_ok hwk with ⟨a, b, hr3, ha, hb⟩
  rcases pbind_eq_ok.mp h5 with ⟨r5, s3, hc2, h6⟩
  rcases pcond_false_eq_ok.mp hc2 with ⟨hr45, hs3⟩
  rcases pmap_eq_ok.mp h6 with ⟨d, hd, hv⟩
  rcases digits1_eq_ok hd with ⟨c, hr5, hc⟩
  exact ⟨r1, y, a, b, c, hy, ha, hb, hc, by rw [← hr12, hr2, hr3, ← hr45, hr5]⟩

/-! ### Pairwise exclusion of whole-input matches (week-date /
year-month-day / ordinal) -/

theorem date_wd_ymd_not_both_full {i : List Nat} {v : WdDate} {w : YmdDate}
    (h1 : date_wd i = .ok [] v) (h2 : date_ymd i = .ok [] w) : False := by
  rcases palt_eq_ok.mp h1 with he1 | ⟨he1f, hb1⟩ <;>
    rcases palt_eq_ok.mp h2 with he2 | ⟨he2f, hb2⟩
  · rcases date_wd_ext_full_shape he1 with ⟨r, y, a, b, c, hy, ha, hb, hc, hr⟩
    rcases date_ymd_ext_full_shape he2 with ⟨r2, y2, a2, b2, c2, d2, hy2, ha2, hb2, hc2, hd2, hr2⟩
    rw [hy] at hy2
    injection hy2 with hre hye
    rw [hr, hr2] at hre
    simp only [List.cons.injEq, reduceCtorEq, and_false, false_and] at hre
    all_goals
      simp only [isDigit, Bool.and_eq_true, decide_eq_true_eq] at ha ha2
      omega
  · rcases date_wd_ext_full_shape he1 with ⟨r, y, a, b, c, hy, ha, hb, hc, hr⟩
    rcases date_ymd_basic_full_shape hb2 with ⟨r2, y2, a2, b2, c2, d2, hy2, ha2, hb2, hc2, hd2, hr2⟩
    rw [hy] at hy2
    injection hy2 with hre hye
    rw [hr, hr2] at hre
    simp only [List.cons.injEq, reduceCtorEq, and_false, false_and] at hre
    all_goals
      simp only [isDigit, Bool.and_eq_true, decide_eq_true_eq] at ha ha2
      omega
  · rcases date_wd_basic_full_shape hb1 with ⟨r, y, a, b, c, hy, ha, hb, hc, hr⟩
    rcases date_ymd_ext_full_shape he2 with ⟨r2, y2, a2, b2, c2, d2, hy2, ha2, hb2, hc2, hd2, hr2⟩
    rw [hy] at hy2
    injection hy2 with hre hye
    rw [hr, hr2] at hre
    simp only [List.cons.injEq, reduceCtorEq, and_false, false_and] at hre
    all_goals
      simp only [isDigit, Bool.and_eq_true, decide_eq_true_eq] at ha ha2
      omega
  · rcases date_wd_basic_full_shape hb1 with ⟨r, y, a, b, c, hy, ha, hb, hc, hr⟩
    rcases date_ymd_basic_full_shape hb2 with ⟨r2, y2, a2, b2, c2, d2, hy2, ha2, hb2, hc2, hd2, hr2⟩
    rw [hy] at hy2
    injection hy2 with hre hye
    rw [hr, hr2] at hre
    simp only [List.cons.injEq, reduceCtorEq, and_false, false_and] at hre
    all_goals
      simp only [isDigit, Bool.and_eq_true, decide_eq_true_eq] at ha ha2
      omega

theorem date_wd_o_not_both_full {i : List Nat} {v : WdDate} {w : ODate}
    (h1 : date_wd i = .ok [] v) (h2 : date_o i = .ok [] w) : False := by
  rcases palt_eq_ok.mp h1 with he1 | ⟨he1f, hb1⟩ <;>
    rcases palt_eq_ok.mp h2 with he2 | ⟨he2f, hb2⟩
  · rcases date_wd_ext_full_shape he1 with ⟨r, y, a, b, c, hy, ha, hb, hc, hr⟩
    rcases date_o_ext_full_shape he2 with ⟨r2, y2, a2, b2, c2, hy2, ha2, hb2, hc2, hr2⟩
    rw [hy] at hy2
    injection hy2 with hre hye
    rw [hr, hr2] at hre
    simp only [List.cons.injEq, reduceCtorEq, and_false, false_and] at hre
    all_goals
      simp only [isDigit, Bool.and_eq_true, decide_eq_true_eq] at ha ha2
      omega
  · rcases date_wd_ext_full_shape he1 with ⟨r, y, a, b, c, hy, ha, hb, hc, hr⟩
    rcases date_o_basic_full_shape hb2 with ⟨r2, y2, a2, b2, c2, hy2, ha2, hb2, hc2, hr2⟩
    rw [hy] at hy2
    injection hy2 with hre hye
    rw [hr, hr2] at hre
    simp only [List.cons.injEq, reduceCtorEq, and_false, false_and] at hre
    all_goals
      simp only [isDigit, Bool.and_eq_true, decide_eq_true_eq] at ha ha2
      omega
  · rcases date_wd_basic_full_shape hb1 with ⟨r, y, a, b, c, hy, ha, hb, hc, hr⟩
    rcases date_o_ext_full_shape he2 with ⟨r2, y2, a2, b2, c2, hy2, ha2, hb2, hc2, hr2⟩
    rw [hy] at hy2
    injection hy2 with hre hye
    rw [hr, hr2] at hre
    simp only [List.cons.injEq, reduceCtorEq, and_false, false_and] at hre
    all_goals
      simp only [isDigit, Bool.and_eq_true, decide_eq_true_eq] at ha ha2
      omega
  · rcases date_wd_basic_full_shape hb1 with ⟨r, y, a, b, c, hy, ha, hb, hc, hr⟩
    rcases date_o_basic_full_shape hb2 with ⟨r2, y2, a2, b2, c2, hy2, ha2, hb2, hc2, hr2⟩
    rw [hy] at hy2
    injection hy2 with hre hye
    rw [hr, hr2] at hre
    simp only [List.cons.injEq, reduceCtorEq, and_false, false_and] at hre
    all_goals
      simp only [isDigit, Bool.and_eq_true, decide_eq_true_eq] at ha ha2
      omega

theorem date_ymd_o_not_both_full {i : List Nat} {v : YmdDate} {w : ODate}
    (h1 : date_ymd i = .ok [] v) (h2 : date_o i = .ok [] w) : False := by
  rcases palt_eq_ok.mp h1 with he1 | ⟨he1f, hb1⟩ <;>
    rcases palt_eq_ok.mp h2 with he2 | ⟨he2f, hb2⟩
  · rcases date_ymd_ext_full_shape he1 with ⟨r, y, a, b, c, d, hy, ha, hb, hc, hd, hr⟩
    rcases date_o_ext_full_shape he2 with ⟨r2, y2, a2, b2, c2, hy2, ha2, hb2, hc2, hr2⟩
    rw [hy] at hy2
    injection hy2 with hre hye
    rw [hr, hr2] at hre
    simp only [List.cons.injEq, reduceCtorEq, and_false, false_and] at hre
    all_goals
      simp only [isDigit, Bool.and_eq_true, decide_eq_true_eq] at ha ha2
      omega
  · rcases date_ymd_ext_full_shape he1 with ⟨r, y, a, b, c, d, hy, ha, hb, hc, hd, hr⟩
    rcases date_o_basic_full_shape hb2 with ⟨r2, y2, a2, b2, c2, hy2, ha2, hb2, hc2, hr2⟩
    rw [hy] at hy2
    injection hy2 with hre hye
    rw [hr, hr2] at hre
    simp only [List.cons.injEq, reduceCtorEq, and_false, false_and] at hre
    all_goals
      simp only [isDigit, Bool.and_eq_true, decide_eq_true_eq] at ha ha2
      omega
  · rcases date_ymd_basic_full_shape hb1 with ⟨r, y, a, b, c, d, hy, ha, hb, hc, hd, hr⟩
    rcases date_o_ext_full_shape he2 with ⟨r2, y2, a2, b2, c2, hy2, ha2, hb2, hc2, hr2⟩
    rw [hy] at hy2
    injection hy2 with hre hye
    rw [hr, hr2] at hre
    simp only [List.cons.injEq, reduceCtorEq, and_false, false_and] at hre
    all_goals
      simp only [isDigit, Bool.and_eq_true, decide_eq_true_eq] at ha ha2
      omega
  · rcases date_ymd_basic_full_shape hb1 with ⟨r, y, a, b, c, d, hy, ha, hb, hc, hd, hr⟩
    rcases date_o_basic_full_shape hb2 with ⟨r2, y2, a2, b2, c2, hy2, ha2, hb2, hc2, hr2⟩
    rw [hy] at hy2
    injection hy2 with hre hye
    rw [hr, hr2] at hre
    simp only [List.cons.injEq, reduceCtorEq, and_false, false_and] at hre
    all_goals
      simp only [isDigit, Bool.and_eq_true, decide_eq_true_eq] at ha ha2
      omega


theorem full_match_eq_true {x : PResult α} :
    full_match x = true ↔ ∃ v, x = .ok [] v := by
  cases x with
  | ok r v => cases r <;> simp
  | error => simp
  | incomplete => simp
  | failure => simp


theorem date_full_cases {i : List Nat} {v : Date} (h : date i = .ok [] v) :
    (∃ d, date_wd i = .ok [] d ∧ v = .WD d) ∨
    (∃ d, date_ymd i = .ok [] d ∧ v = .YMD d) ∨
    (∃ d, date_o i = .ok [] d ∧ v = .O d) := by
  rcases palt_eq_ok.mp h with h1 | ⟨h1f, h2⟩
  · rcases pmap_eq_ok.mp (pcomplete_eq_ok.mp h1) with ⟨d, hd, hv⟩
    exact Or.inl ⟨d, hd, hv⟩
  · rcases palt_eq_ok.mp h2 with h3 | ⟨h3f, h4⟩
    · rcases pmap_eq_ok.mp (pcomplete_eq_ok.mp h3) with ⟨d, hd, hv⟩
      exact Or.inr (Or.inl ⟨d, hd, hv⟩)
    · rcases pmap_eq_ok.mp (pcomplete_eq_ok.mp h4) with ⟨d, hd, hv⟩
      exact Or.inr (Or.inr ⟨d, hd, hv⟩)

theorem date_rev_full_cases {i : List Nat} {v : Date} (h : date_rev i = .ok [] v) :
    (∃ d, date_wd i = .ok [] d ∧ v = .WD d) ∨
    (∃ d, date_ymd i = .ok [] d ∧ v = .YMD d) ∨
    (∃ d, date_o i = .ok [] d ∧ v = .O d) := by
  rcases palt_eq_ok.mp h with h1 | ⟨h1f, h2⟩
  · rcases pmap_eq_ok.mp (pcomplete_eq_ok.mp h1) with ⟨d, hd, hv⟩
    exact Or.inr (Or.inr ⟨d, hd, hv⟩)
  · rcases palt_eq_ok.mp h2 with h3 | ⟨h3f, h4⟩
    · rcases pmap_eq_ok.mp (pcomplete_eq_ok.mp h3) with ⟨d, hd, hv⟩
      exact Or.inr (Or.inl ⟨d, hd, hv⟩)
    · rcases pmap_eq_ok.mp (pcomplete_eq_ok.mp h4) with ⟨d, hd, hv⟩
      exact Or.inl ⟨d, hd, hv⟩

/-! ### The `from_str` success characterization -/

theorem from_str_eq_ok {p : Parser α} {valid : α → Bool} {s : List Nat} {v : α} :
    from_str p valid s = .ok v ↔ ∃ r, p s = .ok r v ∧ valid v = true := by
  constructor
  · intro h
    cases hp : p s with
    | ok r w =>
        simp only [from_str, hp] at h
        split at h
        next hv =>
          cases h
          exact ⟨r, rfl, hv⟩
        next => cases h
    | error => simp [from_str, hp] at h
    | incomplete => simp [from_str, hp] at h
    | failure => simp [from_str, hp] at h
  · rintro ⟨r, hp, hv⟩
    simp [from_str, hp, hv]

/-! ### Claim theorems -/

/-- C1, counterexample: the claim "the timezone field of any GlobalTime
produced by a successful parse is strictly between -1440 and 1440" fails
at the concrete input `"16+99"`: `time_global_h` succeeds and stores
timezone 5940 minutes (sign `+`, two-digit hour field 99, no minute). -/
theorem C1_counterexample_timezone_out_of_range :
    time_global_h [49, 54, 43, 57, 57] = .ok [] ⟨⟨⟨16⟩, 0⟩, 5940⟩ ∧
    decide ((⟨⟨⟨16⟩, 0⟩, 5940⟩ : GlobalTime HTime).timezone < 1440) = false := by
  refine ⟨?_, by decide⟩
  norm_num

/-- C1, amended: the parse alone guarantees only non-negative storage and
sign placement (structural in the embedding); the fraction and timezone
range invariants hold of every value that the parse-then-validate
`FromStr` entry point returns, for every global-time and local-time
instance. -/
theorem C1_parse_invariants_hold_after_validation :
    (∀ (N : Type) (p : Parser (GlobalTime N)) (nv : N → Bool) (s : List Nat)
        (v : GlobalTime N),
      from_str p (GlobalTime.is_valid nv) s = .ok v →
        -1440 < v.timezone ∧ v.timezone < 1440 ∧
          0 ≤ v.loc.fraction ∧ v.loc.fraction < 1) ∧
    (∀ (N : Type) (p : Parser (LocalTime N)) (nv : N → Bool) (s : List Nat)
        (v : LocalTime N),
      from_str p (LocalTime.is_valid nv) s = .ok v →
        0 ≤ v.fraction ∧ v.fraction < 1) := by
  constructor
  · intro N p nv s v h
    rcases from_str_eq_ok.mp h with ⟨r, hp, hv⟩
    simp only [GlobalTime.is_valid, LocalTime.is_valid, Bool.and_eq_true,
      decide_eq_true_eq] at hv
    refine ⟨by omega, by omega, hv.1.1.1.2, hv.1.1.2⟩
  · intro N p nv s v h
    rcases from_str_eq_ok.mp h with ⟨r, hp, hv⟩
    simp only [LocalTime.is_valid, Bool.and_eq_true, decide_eq_true_eq] at hv
    exact ⟨hv.1.2, hv.2⟩

/-- C1, witness: instantiating the amended theorem at the parses of
`"16+01:30"` (global, offset 90 minutes) and `"01:02:03"` (local). -/
theorem C1_witness :
    ((-1440 : Int) < (GlobalTime.mk (LocalTime.mk (HTime.mk 16) 0) 90).timezone ∧
      (GlobalTime.mk (LocalTime.mk (HTime.mk 16) 0) 90).timezone < 1440 ∧
      (0 : ℚ) ≤ (GlobalTime.mk (LocalTime.mk (HTime.mk 16) 0) 90).loc.fraction ∧
      (GlobalTime.mk (LocalTime.mk (HTime.mk 16) 0) 90).loc.fraction < 1) ∧
    ((0 : ℚ) ≤ (LocalTime.mk (HmsTime.mk 1 2 3) 0).fraction ∧
      (LocalTime.mk (HmsTime.mk 1 2 3) 0).fraction < 1) := by
  constructor
  · exact C1_parse_invariants_hold_after_validation.1 HTime time_global_h HTime.is_valid
      [49, 54, 43, 48, 49, 58, 51, 48] ⟨⟨⟨16⟩, 0⟩, 90⟩ (by norm_num)
  · exact C1_parse_invariants_hold_after_validation.2 HmsTime time_local_hms HmsTime.is_valid
      [48, 49, 58, 48, 50, 58, 48, 51] ⟨⟨1, 2, 3⟩, 0⟩ (by norm_num)

/-- C2, counterexample: the claim that the HMS→HM→HMS round trip at
fraction 0 "yields a second of 0" fails at `12:00:30`: narrowing folds the
second into fraction 1/2 and widening restores second 30, not 0. -/
theorem C2_counterexample_second_not_zero :
    localHmToHms (localHmsToHm ⟨⟨12, 0, 30⟩, 0⟩) = ⟨⟨12, 0, 30⟩, 0⟩ ∧
    ((localHmToHms (localHmsToHm ⟨⟨12, 0, 30⟩, 0⟩)).naive.second == 0) = false := by
  have h : localHmToHms (localHmsToHm ⟨⟨12, 0, 30⟩, 0⟩) = ⟨⟨12, 0, 30⟩, 0⟩ := by
    norm_num
    all_goals decide
  exact ⟨h, by rw [h]; decide⟩

/-- C2, amended: for every `LocalTime<HmsTime>` with fraction 0 and a
second in the valid range 0..=60, converting to `LocalTime<HmTime>` and
back reproduces the original hour, minute and second, with a resulting
fraction of 0 (the original claim said the second becomes 0; it is in
fact reproduced). -/
theorem C2_roundtrip_preserves_second (t : LocalTime HmsTime) (hf : t.fraction = 0)
    (hs : t.naive.second ≤ 60) :
    localHmToHms (localHmsToHm t) = ⟨⟨t.naive.hour, t.naive.minute, t.naive.second⟩, 0⟩ := by
  obtain ⟨⟨h, m, s⟩, f⟩ := t
  simp only at hf hs
  subst hf
  have key : ((s : ℚ) + 0) / 60 * 60 = (s : ℚ) := by
    rw [add_zero, div_mul_cancel₀]
    norm_num
  have h0 : ¬((s : ℚ) < 0) := not_lt.mpr (by positivity)
  simp only [localHmsToHm, localHmToHms, LocalTime.secondOfHm, satCastU8, ratTrunc, remF, key,
    if_neg h0, Int.floor_natCast, Int.toNat_natCast, Int.cast_natCast, sub_self]
  have hmin : min 255 s = s := by omega
  rw [hmin]

/-- C2, witness: the amended round trip at `23:59:60` (a leap second)
with fraction 0. -/
theorem C2_witness :
    localHmToHms (localHmsToHm ⟨⟨23, 59, 60⟩, 0⟩) = ⟨⟨23, 59, 60⟩, 0⟩ :=
  C2_roundtrip_preserves_second ⟨⟨23, 59, 60⟩, 0⟩ rfl (by decide)

/-- C3: evaluating the widening at the claimed example, hour 16 with
fraction 1/10 (exactly the value `0.1f32 * 3600` rounds to, 360, so the
rational model agrees with the `f32` code here).  The code widens to
`16:06:15`, not the claimed `16:06:00`: `(fraction * 3_600.) as u8`
saturates 360 to 255 and `255 % 60 = 15`. -/
theorem C3_widen_hour_fraction_saturates :
    localHToHms ⟨⟨16⟩, 1 / 10⟩ = ⟨⟨16, 6, 15⟩, 0⟩ ∧
    ((localHToHms ⟨⟨16⟩, 1 / 10⟩).naive.second == 0) = false := by
  have h : localHToHms ⟨⟨16⟩, 1 / 10⟩ = ⟨⟨16, 6, 15⟩, 0⟩ := by
    norm_num
    all_goals decide
  exact ⟨h, by rw [h]; decide⟩

/-- C4: the byte-scan guard of the partial datetime parser equals the
spec's decision rule (a `T` after the first character, or no leading `T`
and no `:`), and the disambiguation examples hold: `"2018"` is date-only
at year precision, `"T12"` and `"12:30"` are time-only, and the extended
and basic forms of `2018-08-02T12:30:15.2` parse to the identical
combined date-time value. -/
theorem C4_partial_guard_rule_and_examples :
    (∀ i : List Nat, partial_datetime_guard i = partial_guard_spec i) ∧
    partial_datetime_approx_any_approx [50, 48, 49, 56] =
      .ok [] (.Date (.Y ⟨2018⟩)) ∧
    partial_datetime_approx_any_approx [84, 49, 50] =
      .ok [] (.Time (.H (.Local ⟨⟨12⟩, 0⟩))) ∧
    partial_datetime_approx_any_approx [49, 50, 58, 51, 48] =
      .ok [] (.Time (.HM (.Local ⟨⟨12, 30⟩, 0⟩))) ∧
    partial_datetime_approx_any_approx
        [50, 48, 49, 56, 45, 48, 56, 45, 48, 50, 84, 49, 50, 58, 51, 48, 58, 49, 53, 46, 50] =
      .ok [] (.DateTime ⟨.YMD ⟨2018, 8, 2⟩, .HMS (.Local ⟨⟨12, 30, 15⟩, 1 / 5⟩)⟩) ∧
    partial_datetime_approx_any_approx
        [50, 48, 49, 56, 48, 56, 48, 50, 84, 49, 50, 51, 48, 49, 53, 46, 50] =
      .ok [] (.DateTime ⟨.YMD ⟨2018, 8, 2⟩, .HMS (.Local ⟨⟨12, 30, 15⟩, 1 / 5⟩)⟩) := by
  refine ⟨fun i => by cases i <;> rfl, ?_, ?_, ?_, ?_, ?_⟩ <;>
    (norm_num; all_goals decide)

/-- C5: on input `"T"` — which contains neither a date nor a time and is
a valid prefix of e.g. `"T12"` — the partial parser returns a hard
recoverable parse error, because `map_res` converts the
`nom::Err::Incomplete` its closure builds into an `ErrorKind::MapRes`
error; only the empty input happens to produce a genuine incomplete
outcome (through the streaming `sign` parser inside the date grammar). -/
theorem C5_neither_date_nor_time_is_hard_error :
    partial_datetime_approx_any_approx [84] = .error ∧
    partial_datetime_approx_any_approx [] = .incomplete := by
  constructor <;> norm_num

/-- C6: the `HmsTime` validity predicate — computed bottom-up through the
`HmTime` and `HTime` predicates — holds exactly when hour ≤ 24, minute ≤
59 and second ≤ 60; in particular the end-of-day hour 24 and leap second
60 are accepted, and the predicate is a total boolean function. -/
theorem C6_hms_validity_iff (t : HmsTime) :
    t.is_valid = true ↔ (t.hour ≤ 24 ∧ t.minute ≤ 59 ∧ t.second ≤ 60) := by
  obtain ⟨h, m, s⟩ := t
  simp [and_assoc]

/-- C7: every composed datetime parser built by the `datetime!` macro
fails with a format error whenever the date part is followed by two
consecutive `T` bytes, for any date parser, any time parser and any
input. -/
theorem C7_datetime_rejects_double_T {D T : Type} (dp : Parser D) (tp : Parser T)
    (i r : List Nat) (d : D) (h : dp i = .ok (84 :: 84 :: r) d) :
    datetime_format dp tp i = .error := by
  simp [datetime_format, h]

/-- C7, witness: `"2018-08-02TT22:01:39Z"` fails to parse as a composed
datetime (the date parses, leaving `TT22:01:39Z`). -/
theorem C7_witness :
    datetime_approx_any_approx
      [50, 48, 49, 56, 45, 48, 56, 45, 48, 50, 84, 84, 50, 50, 58, 48, 49, 58, 51, 57, 90] =
      .error :=
  C7_datetime_rejects_double_T date_approx time_any_approx
    [50, 48, 49, 56, 45, 48, 56, 45, 48, 50, 84, 84, 50, 50, 58, 48, 49, 58, 51, 57, 90]
    [50, 50, 58, 48, 49, 58, 51, 57, 90] (ApproxDate.YMD ⟨2018, 8, 2⟩) (by norm_num)

/-- C8, counterexample: on the well-formed basic-format input
`"20181001"` two of the three exact date sub-grammars structurally match
— year-month-day consumes all eight digits as `2018-10-01` while the
ordinal grammar also succeeds, reading `2018-100` and leaving a trailing
`"1"` — refuting "at most one structurally matches" and making the
alternation order decide the result. -/
theorem C8_counterexample_two_grammars_match :
    date_ymd [50, 48, 49, 56, 49, 48, 48, 49] = .ok [] ⟨2018, 10, 1⟩ ∧
    date_o [50, 48, 49, 56, 49, 48, 48, 49] = .ok [49] ⟨2018, 100⟩ := by
  constructor <;> norm_num

/-- C8, amended: at most one of the three exact date sub-grammars matches
the *entire* input (pairwise, week-date/year-month-day/ordinal whole-input
matches are mutually exclusive), and consequently whenever both the
source's alternation order and the reversed order consume the whole
input they return the same value. -/
theorem C8_full_match_exclusive_and_order_independent :
    (∀ i : List Nat,
      (full_match (date_wd i) && full_match (date_ymd i)) = false ∧
      (full_match (date_wd i) && full_match (date_o i)) = false ∧
      (full_match (date_ymd i) && full_match (date_o i)) = false) ∧
    (∀ (i : List Nat) (v w : Date),
      date i = .ok [] v → date_rev i = .ok [] w → v = w) := by
  constructor
  · intro i
    refine ⟨?_, ?_, ?_⟩
    · cases hw : full_match (date_wd i) with
      | false => rw [Bool.false_and]
      | true =>
          cases hy : full_match (date_ymd i) with
          | false => rfl
          | true =>
              rcases full_match_eq_true.mp hw with ⟨v, hv⟩
              rcases full_match_eq_true.mp hy with ⟨w, hwm⟩
              exact (date_wd_ymd_not_both_full hv hwm).elim
    · cases hw : full_match (date_wd i) with
      | false => rw [Bool.false_and]
      | true =>
          cases hy : full_match (date_o i) with
          | false => rfl
          | true =>
              rcases full_match_eq_true.mp hw with ⟨v, hv⟩
              rcases full_match_eq_true.mp hy with ⟨w, hwm⟩
              exact (date_wd_o_not_both_full hv hwm).elim
    · cases hw : full_match (date_ymd i) with
      | false => rw [Bool.false_and]
      | true =>
          cases hy : full_match (date_o i) with
          | false => rfl
          | true =>
              rcases full_match_eq_true.mp hw with ⟨v, hv⟩
              rcases full_match_eq_true.mp hy with ⟨w, hwm⟩
              exact (date_ymd_o_not_both_full hv hwm).elim
  · intro i v w hv hw
    rcases date_full_cases hv with ⟨d1, h1, e1⟩ | ⟨d1, h1, e1⟩ | ⟨d1, h1, e1⟩ <;>
      rcases date_rev_full_cases hw with ⟨d2, h2, e2⟩ | ⟨d2, h2, e2⟩ | ⟨d2, h2, e2⟩
    · rw [h1] at h2
      cases h2
      rw [e1, e2]
    · exact (date_wd_ymd_not_both_full h1 h2).elim
    · exact (date_wd_o_not_both_full h1 h2).elim
    · exact (date_wd_ymd_not_both_full h2 h1).elim
    · rw [h1] at h2
      cases h2
      rw [e1, e2]
    · exact (date_ymd_o_not_both_full h1 h2).elim
    · exact (date_wd_o_not_both_full h2 h1).elim
    · exact (date_ymd_o_not_both_full h2 h1).elim
    · rw [h1] at h2
      cases h2
      rw [e1, e2]

/-- C8, witness: the exclusion instantiated at `"20181001"`, and the
order-independence implication instantiated at `"2018-102"`, which both
orders parse fully to the ordinal date 2018-102. -/
theorem C8_witness :
    (full_match (date_wd [50, 48, 49, 56, 49, 48, 48, 49]) &&
      full_match (date_ymd [50, 48, 49, 56, 49, 48, 48, 49])) = false ∧
    Date.O ⟨2018, 102⟩ = Date.O ⟨2018, 102⟩ := by
  constructor
  · exact (C8_full_match_exclusive_and_order_independent.1 _).1
  · exact C8_full_match_exclusive_and_order_independent.2
      [50, 48, 49, 56, 45, 49, 48, 50] (Date.O ⟨2018, 102⟩) (Date.O ⟨2018, 102⟩)
      (by norm_num) (by norm_num)

/-- C9: the `FromStr` implementations generated by `impl_fromstr_parse!`
succeed whenever the underlying parser succeeds on a prefix with a valid
value, regardless of the unconsumed trailing bytes, which are silently
discarded rather than reported as a format error. -/
theorem C9_fromstr_ignores_trailing {α : Type} (p : Parser α) (valid : α → Bool)
    (s rest : List Nat) (v : α) (hp : p s = .ok rest v) (hv : valid v = true) :
    from_str p valid s = .ok v :=
  from_str_eq_ok.mpr ⟨rest, hp, hv⟩

/-- C9, witness: `"12:30:15xyz"` parses as a `LocalTime<HmsTime>` via
`FromStr`, returning the value of the prefix `12:30:15` and discarding
`"xyz"`. -/
theorem C9_witness :
    from_str time_local_hms (LocalTime.is_valid HmsTime.is_valid)
      [49, 50, 58, 51, 48, 58, 49, 53, 120, 121, 122] = .ok ⟨⟨12, 30, 15⟩, 0⟩ :=
  C9_fromstr_ignores_trailing time_local_hms (LocalTime.is_valid HmsTime.is_valid)
    [49, 50, 58, 51, 48, 58, 49, 53, 120, 121, 122] [120, 121, 122] ⟨⟨12, 30, 15⟩, 0⟩
    (by norm_num) (by norm_num)

/-- C10: all five precision conversions between `GlobalTime` types
convert only the local component and leave the timezone field
unchanged. -/
theorem C10_conversions_preserve_timezone :
    ∀ (a : GlobalTime HmsTime) (b : GlobalTime HmTime) (c : GlobalTime HTime),
      (globalHmsToHm a).timezone = a.timezone ∧
      (globalHmsToH a).timezone = a.timezone ∧
      (globalHmToH b).timezone = b.timezone ∧
      (globalHmToHms b).timezone = b.timezone ∧
      (globalHToHms c).timezone = c.timezone :=
  fun a b c => ⟨rfl, rfl, rfl, rfl, rfl⟩
